import Mathlib

/-!
Shallow embedding of the WhatsMyName maintenance scripts
(`scripts/wmn_base.py`, `scripts/wmn_format_dataset.py`,
`scripts/wmn_hash_dataset.py`, `scripts/wmn_validate_dataset.py`).

JSON values parsed by Python's `json.loads` are modelled by the inductive
type `Json` below; Python dicts are association lists in insertion order
(Python dicts preserve insertion order and have unique keys).  Machine-level
collaborators that the scripts use but do not define (the JSON
parser/serializer, `str.casefold`, `str.strip`, `str()`, SHA-256) are
modelled by executable Lean functions faithful to their documented
behaviour on the data shapes the scripts handle.
-/

/-- A JSON value as produced by Python's `json.loads`: objects are
insertion-ordered association lists, numbers are modelled as integers
(the dataset uses no fractional numbers). `null` is Python `None`. -/
inductive Json where
  | null : Json
  | bool : Bool → Json
  | num : Int → Json
  | str : String → Json
  | arr : List Json → Json
  | obj : List (String × Json) → Json
deriving Repr

mutual
/-- Structural equality test for `Json` (nested inductive, so the
decidable-equality instance is built by hand). -/
def Json.beq : Json → Json → Bool
  | Json.null, Json.null => true
  | Json.bool a, Json.bool b => a == b
  | Json.num a, Json.num b => a == b
  | Json.str a, Json.str b => a == b
  | Json.arr a, Json.arr b => Json.beqList a b
  | Json.obj a, Json.obj b => Json.beqPairs a b
  | _, _ => false

def Json.beqList : List Json → List Json → Bool
  | [], [] => true
  | x :: xs, y :: ys => Json.beq x y && Json.beqList xs ys
  | _, _ => false

def Json.beqPairs : List (String × Json) → List (String × Json) → Bool
  | [], [] => true
  | (k, v) :: ps, (k₂, v₂) :: qs =>
      k == k₂ && Json.beq v v₂ && Json.beqPairs ps qs
  | _, _ => false
end

mutual
theorem Json.eq_of_beq : ∀ {a b : Json}, Json.beq a b = true → a = b
  | Json.null, Json.null, _ => rfl
  | Json.bool _, Json.bool _, h => by
      simp only [Json.beq, beq_iff_eq] at h; rw [h]
  | Json.num _, Json.num _, h => by
      simp only [Json.beq, beq_iff_eq] at h; rw [h]
  | Json.str _, Json.str _, h => by
      simp only [Json.beq, beq_iff_eq] at h; rw [h]
  | Json.arr _, Json.arr _, h => by
      simp only [Json.beq] at h; rw [Json.eqList_of_beq h]
  | Json.obj _, Json.obj _, h => by
      simp only [Json.beq] at h; rw [Json.eqPairs_of_beq h]

theorem Json.eqList_of_beq : ∀ {a b : List Json}, Json.beqList a b = true → a = b
  | [], [], _ => rfl
  | x :: xs, y :: ys, h => by
      simp only [Json.beqList, Bool.and_eq_true] at h
      rw [Json.eq_of_beq h.1, Json.eqList_of_beq h.2]

theorem Json.eqPairs_of_beq :
    ∀ {a b : List (String × Json)}, Json.beqPairs a b = true → a = b
  | [], [], _ => rfl
  | (k, v) :: ps, (k₂, v₂) :: qs, h => by
      simp only [Json.beqPairs, Bool.and_eq_true, beq_iff_eq] at h
      rw [h.1.1, Json.eq_of_beq h.1.2, Json.eqPairs_of_beq h.2]
end

mutual
theorem Json.beq_refl : ∀ a : Json, Json.beq a a = true
  | Json.null => rfl
  | Json.bool _ => by simp [Json.beq]
  | Json.num _ => by simp [Json.beq]
  | Json.str _ => by simp [Json.beq]
  | Json.arr xs => by simp only [Json.beq]; exact Json.beqList_refl xs
  | Json.obj ps => by simp only [Json.beq]; exact Json.beqPairs_refl ps

theorem Json.beqList_refl : ∀ a : List Json, Json.beqList a a = true
  | [] => rfl
  | x :: xs => by
      simp only [Json.beqList, Bool.and_eq_true]
      exact ⟨Json.beq_refl x, Json.beqList_refl xs⟩

theorem Json.beqPairs_refl : ∀ a : List (String × Json), Json.beqPairs a a = true
  | [] => rfl
  | (k, v) :: ps => by
      simp only [Json.beqPairs, Bool.and_eq_true, beq_self_eq_true, true_and]
      exact ⟨Json.beq_refl v, Json.beqPairs_refl ps⟩
end

instance : DecidableEq Json := fun a b =>
  if h : Json.beq a b = true then isTrue (Json.eq_of_beq h)
  else isFalse (fun he => h (he ▸ Json.beq_refl a))

/-- Error taxonomy of `wmn_exceptions.py`, plus `pyError` for an uncaught
Python exception (`AttributeError`/`TypeError`) escaping the scripts. -/
inductive WMNErr where
  | fileError (msg : String)
  | formatError (msg : String)
  | schemaError (msg : String)
  | hashError (msg : String)
  | pyError (msg : String)
deriving DecidableEq, Repr

/-- ASCII lower-casing of one character. -/
def charFold (c : Char) : Char :=
  if 65 ≤ c.toNat ∧ c.toNat ≤ 90 then Char.ofNat (c.toNat + 32) else c

/-- Model of Python `str.casefold` (lower-casing; faithful on the ASCII
range the dataset's sort keys use). -/
def caseFold (s : String) : String := String.mk (s.data.map charFold)

/-- Python whitespace characters stripped by `str.strip()`. -/
def isPySpace (c : Char) : Bool :=
  c.toNat = 32 || c.toNat = 9 || c.toNat = 10 || c.toNat = 13 ||
    c.toNat = 11 || c.toNat = 12

/-- Model of Python `str.strip` (remove surrounding whitespace). -/
def pyStrip (s : String) : String :=
  String.mk (((s.data.dropWhile isPySpace).reverse.dropWhile isPySpace).reverse)

/-- Lexicographic `≤` on code-point lists: the order Python uses to
compare strings. -/
def strLeList : List Char → List Char → Bool
  | [], _ => true
  | _ :: _, [] => false
  | a :: as, b :: bs =>
      if a.toNat < b.toNat then true
      else if b.toNat < a.toNat then false
      else strLeList as bs

/-- Model of Python `<=` on strings (lexicographic by code point). -/
def pyLe (s t : String) : Bool := strLeList s.data t.data

/-- Sort relation of Python `sorted(..., key=key)`: compare the keys. -/
def keyLe {α : Type} (key : α → String) (a b : α) : Prop :=
  pyLe (key a) (key b) = true

instance {α : Type} (key : α → String) : DecidableRel (keyLe key) :=
  fun _ _ => instDecidableEqBool _ _

/-- Python truthiness of a JSON-parsed value. -/
def pyTruthy : Json → Bool
  | Json.null => false
  | Json.bool b => b
  | Json.num n => n != 0
  | Json.str s => s ≠ ""
  | Json.arr xs => !xs.isEmpty
  | Json.obj kvs => !kvs.isEmpty

mutual
/-- Model of Python `repr` on JSON-parsed values (used by `str()` on
non-string values, e.g. a sort key `str(site.get("name", ""))` when the
name is not a string). -/
def pyRepr : Json → String
  | Json.null => "None"
  | Json.bool true => "True"
  | Json.bool false => "False"
  | Json.num n => toString n
  | Json.str s => "'" ++ s ++ "'"
  | Json.arr xs => "[" ++ String.intercalate ", " (pyReprList xs) ++ "]"
  | Json.obj kvs => "\x7b" ++ String.intercalate ", " (pyReprPairs kvs) ++ "\x7d"

def pyReprList : List Json → List String
  | [] => []
  | x :: xs => pyRepr x :: pyReprList xs

def pyReprPairs : List (String × Json) → List String
  | [] => []
  | (k, v) :: ps => ("'" ++ k ++ "': " ++ pyRepr v) :: pyReprPairs ps
end

/-- Model of Python `str()` on JSON-parsed values. -/
def pyStr : Json → String
  | Json.str s => s
  | v => pyRepr v

/-- Hex digit for JSON `\u00XX` escapes. -/
def hexDigit (n : Nat) : Char :=
  if n < 10 then Char.ofNat (48 + n) else Char.ofNat (87 + n)

/-- JSON string escaping as done by `json.dumps(..., ensure_ascii=False)`. -/
def jsonEscapeChar (c : Char) : String :=
  if c = '"' then "\\\""
  else if c = '\\' then "\\\\"
  else if c = '\n' then "\\n"
  else if c = '\t' then "\\t"
  else if c = '\r' then "\\r"
  else if c = Char.ofNat 8 then "\\b"
  else if c = Char.ofNat 12 then "\\f"
  else if c.toNat < 32 then
    "\\u00" ++ String.singleton (hexDigit (c.toNat / 16)) ++
      String.singleton (hexDigit (c.toNat % 16))
  else String.singleton c

def jsonEscape (s : String) : String :=
  String.join (s.data.map jsonEscapeChar)

def indentSpaces (n : Nat) : String :=
  String.mk (List.replicate (2 * n) ' ')

mutual
/-- Model of Python `json.dumps(v, indent=2, ensure_ascii=False)` at
nesting level `lvl` (`DEFAULT_JSON_INDENT = 2`). -/
def dumpsVal : Nat → Json → String
  | _, Json.null => "null"
  | _, Json.bool true => "true"
  | _, Json.bool false => "false"
  | _, Json.num n => toString n
  | _, Json.str s => "\"" ++ jsonEscape s ++ "\""
  | _, Json.arr [] => "[]"
  | lvl, Json.arr (x :: xs) =>
      "[\n" ++ String.intercalate ",\n" (dumpsItems (lvl + 1) (x :: xs)) ++
        "\n" ++ indentSpaces lvl ++ "]"
  | _, Json.obj [] => "\x7b\x7d"
  | lvl, Json.obj (p :: ps) =>
      "\x7b\n" ++ String.intercalate ",\n" (dumpsPairs (lvl + 1) (p :: ps)) ++
        "\n" ++ indentSpaces lvl ++ "\x7d"

def dumpsItems : Nat → List Json → List String
  | _, [] => []
  | lvl, x :: xs => (indentSpaces lvl ++ dumpsVal lvl x) :: dumpsItems lvl xs

def dumpsPairs : Nat → List (String × Json) → List String
  | _, [] => []
  | lvl, (k, v) :: ps =>
      (indentSpaces lvl ++ "\"" ++ jsonEscape k ++ "\": " ++ dumpsVal lvl v) ::
        dumpsPairs lvl ps
end

/-- `json.dumps(v, indent=DEFAULT_JSON_INDENT, ensure_ascii=False)`. -/
def dumps (v : Json) : String := dumpsVal 0 v

/-! ## Dict operations

Python dict assignment `d[k] = v` overwrites in place when the key is
present (keeping its position) and appends otherwise. -/

/-- Key lookup on an insertion-ordered dict (`k in d` / `d[k]` / `d.get(k)`). -/
def alookup : List (String × Json) → String → Option Json
  | [], _ => none
  | p :: ps, k => if p.1 = k then some p.2 else alookup ps k

/-- Python `d[k] = v` on an insertion-ordered dict. -/
def dictSet (kvs : List (String × Json)) (k : String) (v : Json) :
    List (String × Json) :=
  if (alookup kvs k).isSome then
    kvs.map (fun p => if p.1 = k then (k, v) else p)
  else kvs ++ [(k, v)]

/-- All elements that are strings, or `none` (models the
`all(isinstance(item, str) ...)` check). -/
def asStrings : List Json → Option (List String)
  | [] => some []
  | Json.str s :: rest => (asStrings rest).map (s :: ·)
  | _ => none

/-- All elements that are objects, or `none`: a non-dict site makes the
scripts crash with `AttributeError` (on `site.get`), modelled as
`pyError` by the callers of this function. -/
def asObjList : List Json → Option (List (List (String × Json)))
  | [] => some []
  | Json.obj kvs :: rest => (asObjList rest).map (kvs :: ·)
  | _ => none

/-! ## `WMNDataFormatter` (`wmn_format_dataset.py`) -/

/-- `_sort_array_alphabetically`: `sorted(array, key=str.casefold)`.
`insertionSort` is a stable sort, hence pointwise equal to Python's
stable `sorted` under the same key order. -/
def sort_array_alphabetically (array : List String) : List String :=
  List.insertionSort (keyLe caseFold) array

/-- Sort key used by `_sort_sites_by_name`:
`str(site.get(NAME_KEY, "")).casefold()`. -/
def siteNameKey (site : List (String × Json)) : String :=
  caseFold (pyStr ((alookup site "name").getD (Json.str "")))

/-- `_sort_sites_by_name` (on the site dicts; a non-dict site crashes the
sort key with `AttributeError`, which callers gate via `asObjList`). -/
def sort_sites_by_name (sites : List (List (String × Json))) :
    List (List (String × Json)) :=
  List.insertionSort (keyLe siteNameKey) sites

/-- Sort key used by `_sort_site_headers`: `str(item[0]).casefold()`. -/
def headerKey (p : String × Json) : String := caseFold p.1

/-- `_sort_site_headers`: sort the `headers` sub-dict by key when it is a
non-empty dict (`if headers and isinstance(headers, dict)`). -/
def sort_site_headers (site_data : List (String × Json)) :
    List (String × Json) :=
  match (alookup site_data "headers").getD Json.null with
  | Json.obj hs =>
      if hs.isEmpty then site_data
      else dictSet site_data "headers"
        (Json.obj (List.insertionSort (keyLe headerKey) hs))
  | _ => site_data

/-- The re-emission loop of `_reorder_site_keys`:
`for key in key_order: if key in site_data: result[key] = site_data[key]`.
`key_order` comes from a Python dict's keys, hence is duplicate-free,
making the `filterMap` equal to the source's dict-building loop. -/
def schemaReorder (key_order : List String) (site_data : List (String × Json)) :
    List (String × Json) :=
  key_order.filterMap (fun k => (alookup site_data k).map (fun v => (k, v)))

/-- `_reorder_site_keys`: reject unknown keys, then re-emit in
`key_order`. -/
def reorder_site_keys (site_data : List (String × Json))
    (key_order : List String) : Except WMNErr (List (String × Json)) :=
  let unknown_keys :=
    (site_data.map Prod.fst).filter (fun k => !(decide (k ∈ key_order)))
  if unknown_keys.isEmpty then
    .ok (schemaReorder key_order site_data)
  else .error (.formatError "Unknown keys found in site data")

/-- Python `value.get(k, dflt)`: only dicts have `.get`; on anything else
an `AttributeError` escapes. -/
def pyGet (v : Json) (k : String) (dflt : Json) : Except WMNErr Json :=
  match v with
  | Json.obj kvs => .ok ((alookup kvs k).getD dflt)
  | _ => .error (.pyError "AttributeError: object has no attribute get")

/-- The `.get` chain of `_get_site_key_order`:
`schema.get("properties", {}).get("sites", {}).get("items", {}).get("properties")`. -/
def site_schema_lookup (schema : Json) : Except WMNErr Json := do
  let a ← pyGet schema "properties" (Json.obj [])
  let b ← pyGet a "sites" (Json.obj [])
  let c ← pyGet b "items" (Json.obj [])
  pyGet c "properties" Json.null

/-- `_get_site_key_order`. -/
def get_site_key_order (schema : Json) : Except WMNErr (List String) := do
  let site_schema ← site_schema_lookup schema
  match site_schema with
  | Json.null => .error (.schemaError "Site schema properties not found in schema")
  | Json.obj kvs => .ok (kvs.map Prod.fst)
  | _ => .error (.schemaError "Site schema properties must be an object")

/-- `_format_string_array`: validate and sort the string array at `key`,
storing the result back (`self.data[key] = ...`). -/
def format_string_array (kvs : List (String × Json)) (key : String) :
    Except WMNErr (List (String × Json)) :=
  match (alookup kvs key).getD Json.null with
  | Json.null => .error (.formatError ("'" ++ key ++ "' is required but not found"))
  | Json.arr items =>
      if items.isEmpty then
        .error (.formatError ("'" ++ key ++ "' must be a non-empty list"))
      else
        match asStrings items with
        | some strs =>
            if strs.all (fun s => !(decide (pyStrip s = ""))) then
              .ok (dictSet kvs key
                (Json.arr ((sort_array_alphabetically strs).map Json.str)))
            else
              .error (.formatError ("'" ++ key ++ "' must contain non-empty strings"))
        | none =>
            .error (.formatError ("'" ++ key ++ "' must contain non-empty strings"))
  | _ => .error (.formatError ("'" ++ key ++ "' must be a non-empty list"))

/-- `_format_site`: sorted headers, then schema-ordered keys. -/
def format_site (site_data : List (String × Json)) (key_order : List String) :
    Except WMNErr (List (String × Json)) :=
  reorder_site_keys (sort_site_headers site_data) key_order

/-- The list comprehension
`[self._format_site(site_data, key_order) for site_data in sorted_sites]`. -/
def format_sites_list (key_order : List String) :
    List (List (String × Json)) → Except WMNErr (List Json)
  | [] => .ok []
  | s :: rest => do
      let r ← format_site s key_order
      let rs ← format_sites_list key_order rest
      .ok (Json.obj r :: rs)

/-- `_format_sites`: sort, derive key order, format each site, store
back. A non-dict element of `sites` makes the source crash with
`AttributeError` inside the sort key, modelled by the `asObjList` gate. -/
def format_sites (schema : Json) (kvs : List (String × Json)) :
    Except WMNErr (List (String × Json)) :=
  match (alookup kvs "sites").getD Json.null with
  | Json.arr sites =>
      match asObjList sites with
      | some site_objs => do
          let sorted_sites := sort_sites_by_name site_objs
          let key_order ← get_site_key_order schema
          let formatted ← format_sites_list key_order sorted_sites
          .ok (dictSet kvs "sites" (Json.arr formatted))
      | none => .error (.pyError "AttributeError: site has no attribute get")
  | _ => .error (.formatError "'sites' must be a list")

/-- `format_data` up to serialization: the value of `self.data` after the
in-place formatting steps. A non-dict top level crashes on
`self.data.get` with `AttributeError`. -/
def format_data_value (schema : Json) (data : Json) : Except WMNErr Json :=
  match data with
  | Json.obj kvs => do
      let kvs1 ← format_string_array kvs "authors"
      let kvs2 ← format_string_array kvs1 "categories"
      let kvs3 ← format_sites schema kvs2
      .ok (Json.obj kvs3)
  | _ => .error (.pyError "AttributeError: data has no attribute get")

/-- `format_data`: the returned JSON string (values built from `json.loads`
output are always serializable, so the `json.dumps` try/except never
fires). -/
def format_data (schema : Json) (data : Json) : Except WMNErr String :=
  (format_data_value schema data).map dumps

/-! ## Storage accessor state (`wmn_base.py`) -/

/-- The file system visible to one run: readable content per path (`none`
when reading raises `WMNFileError`), and write permission per path. -/
structure FileSystem where
  read : String → Option String
  canWrite : String → Bool

/-- A successful `Path.write_text`. -/
def fsWrite (fs : FileSystem) (p content : String) : FileSystem :=
  { fs with read := fun q => if q = p then some content else fs.read q }

/-- The cache fields of `WMNBase`: `_data_raw`, `_schema_raw`, `_data`,
`_schema`, plus the two tracked paths. -/
structure WMNBase where
  data_path : String
  schema_path : String
  data_raw : Option String
  schema_raw : Option String
  data_parsed : Option Json
  schema_parsed : Option Json
deriving DecidableEq, Repr

/-- `WMNBase.write_file_content`: write, then update the cached raw text
and invalidate the parsed cache for the tracked path written; on a failed
write the exception propagates before any cache mutation. -/
def write_file_content (b : WMNBase) (fs : FileSystem) (file_path content : String) :
    Except WMNErr Unit × WMNBase × FileSystem :=
  if fs.canWrite file_path then
    let b' :=
      if file_path = b.data_path then
        { b with data_raw := some content, data_parsed := none }
      else if file_path = b.schema_path then
        { b with schema_raw := some content, schema_parsed := none }
      else b
    (.ok (), b', fsWrite fs file_path content)
  else (.error (.fileError ("Failed to write " ++ file_path)), b, fs)

/-- `WMNDataFormatter.format_file`: re-raise `WMNError`s from the
formatter, wrap any other exception in a `WMNFormatError`; write only
when the formatted text differs from `raw_data`. -/
def format_file (b : WMNBase) (fs : FileSystem) (fmt : Except WMNErr String)
    (raw_data file_path : String) : Except WMNErr Bool × WMNBase × FileSystem :=
  match fmt with
  | .error (.pyError _) =>
      (.error (.formatError ("Unexpected error formatting " ++ file_path)), b, fs)
  | .error e => (.error e, b, fs)
  | .ok formatted_data =>
      if raw_data ≠ formatted_data then
        match write_file_content b fs file_path formatted_data with
        | (.ok _, b', fs') => (.ok true, b', fs')
        | (.error e, b', fs') => (.error e, b', fs')
      else (.ok false, b, fs)

/-! ## `WMNDataHasher` (`wmn_hash_dataset.py`) -/

inductive HashStatus where
  | NEW
  | UPDATED
  | UNCHANGED
deriving DecidableEq, Repr

structure HashResult where
  file : String
  status : HashStatus
  new_hash : String
  previous_hash : Option String
deriving DecidableEq, Repr

/-- `_get_hash_file_path`: `target.with_suffix(target.suffix + ".sha256")`,
i.e. append the constant suffix. -/
def get_hash_file_path (target_file : String) : String :=
  target_file ++ ".sha256"

/-- `update_hash_file`. The SHA-256 primitive is the external
collaborator `hashlib`; it is passed in as `hash`. A failed read of the
digest file (absent or unreadable) yields `previous_hash = None`. -/
def update_hash_file (hash : String → String) (b : WMNBase) (fs : FileSystem)
    (target_file : String) (data : String) :
    Except WMNErr HashResult × WMNBase × FileSystem :=
  let new_hash := hash data
  let hash_file := get_hash_file_path target_file
  let previous_hash := (fs.read hash_file).map pyStrip
  if previous_hash = some new_hash then
    (.ok ⟨target_file, HashStatus.UNCHANGED, new_hash, previous_hash⟩, b, fs)
  else
    match write_file_content b fs hash_file (new_hash ++ "\n") with
    | (.ok _, b', fs') =>
        (.ok ⟨target_file,
              if previous_hash.isNone then HashStatus.NEW else HashStatus.UPDATED,
              new_hash, previous_hash⟩, b', fs')
    | (.error _, b', fs') =>
        (.error (.hashError ("Failed to write hash file for " ++ target_file)),
          b', fs')

/-! ## `WMNDataValidator` (`wmn_validate_dataset.py`) -/

/-- One segment of `jsonschema`'s `error.absolute_path`. -/
inductive PathSeg where
  | key (k : String)
  | idx (i : Nat)
deriving DecidableEq, Repr

/-- The fields of `jsonschema.ValidationError` the validator reads. -/
structure ValidationError where
  message : String
  json_path : String
  absolute_path : List PathSeg
deriving DecidableEq, Repr

structure WMNValidationModel where
  path : String
  data : Option String
  message : String
deriving DecidableEq, Repr

/-- The walk `for segment in error.absolute_path: current = current[segment]`;
any `KeyError`/`IndexError`/`TypeError` is caught by the surrounding
`except Exception`, yielding `none`. -/
def walkPath : Json → List PathSeg → Option Json
  | v, [] => some v
  | Json.obj kvs, PathSeg.key k :: rest =>
      (alookup kvs k).bind (fun v => walkPath v rest)
  | Json.arr xs, PathSeg.idx i :: rest =>
      (xs.get? i).bind (fun v => walkPath v rest)
  | _, _ => none

/-- `_format_validation_error`: note the `if error.absolute_path:` guard —
an empty path yields no snippet, and a located `None` yields no snippet. -/
def format_validation_error (data : Json) (error : ValidationError) :
    WMNValidationModel :=
  let data_preview : Option String :=
    if error.absolute_path.isEmpty then none
    else
      match walkPath data error.absolute_path with
      | some v => if v ≠ Json.null then some (dumps v) else none
      | none => none
  ⟨error.json_path, data_preview, error.message⟩

/-- The names collected by `validate_duplicates`:
`[site.get(NAME_KEY) for site in sites_data if site.get(NAME_KEY)]`. -/
def collected_site_names (sites : List (List (String × Json))) : List Json :=
  sites.filterMap (fun s =>
    let v := (alookup s "name").getD Json.null
    if pyTruthy v then some v else none)

/-- `collections.Counter` iteration order: distinct values in first-seen
order. -/
def firstDedup (l : List Json) : List Json :=
  l.foldl (fun acc x => if x ∈ acc then acc else acc ++ [x]) []

/-- `validate_duplicates`: values occurring more than once among the
collected names, in `Counter` order. A non-list `sites` or non-dict site
crashes with an uncaught Python exception. -/
def validate_duplicates (kvs : List (String × Json)) : Except WMNErr (List Json) :=
  match (alookup kvs "sites").getD (Json.arr []) with
  | Json.arr sites =>
      match asObjList sites with
      | some site_objs =>
          let site_names := collected_site_names site_objs
          .ok ((firstDedup site_names).filter (fun n => 1 < site_names.count n))
      | none => .error (.pyError "AttributeError: site has no attribute get")
  | _ => .error (.pyError "TypeError: sites is not iterable")

/-! ## Order facts about `pyLe` -/

theorem strLeList_refl : ∀ as : List Char, strLeList as as = true
  | [] => rfl
  | a :: as => by simp [strLeList, strLeList_refl as]

theorem strLeList_cons_iff {a b : Char} {as bs : List Char} :
    strLeList (a :: as) (b :: bs) = true ↔
      a.toNat < b.toNat ∨ (a.toNat = b.toNat ∧ strLeList as bs = true) := by
  simp only [strLeList]
  by_cases h1 : a.toNat < b.toNat
  · simp [h1]
  · by_cases h2 : b.toNat < a.toNat
    · have hne : ¬ a.toNat = b.toNat := by omega
      simp [h1, h2, hne]
    · have heq : a.toNat = b.toNat := by omega
      simp [h1, h2, heq]

theorem strLeList_total : ∀ as bs, strLeList as bs = true ∨ strLeList bs as = true
  | [], _ => Or.inl rfl
  | _ :: _, [] => Or.inr rfl
  | a :: as, b :: bs => by
      rw [strLeList_cons_iff, strLeList_cons_iff]
      rcases Nat.lt_trichotomy a.toNat b.toNat with h | h | h
      · exact Or.inl (Or.inl h)
      · rcases strLeList_total as bs with hr | hr
        · exact Or.inl (Or.inr ⟨h, hr⟩)
        · exact Or.inr (Or.inr ⟨h.symm, hr⟩)
      · exact Or.inr (Or.inl h)

theorem strLeList_trans : ∀ as bs cs, strLeList as bs = true →
    strLeList bs cs = true → strLeList as cs = true
  | [], _, _, _, _ => rfl
  | _ :: _, [], _, h, _ => by simp [strLeList] at h
  | _ :: _, _ :: _, [], _, h => by simp [strLeList] at h
  | a :: as, b :: bs, c :: cs, h1, h2 => by
      rw [strLeList_cons_iff] at h1 h2 ⊢
      rcases h1 with h1 | ⟨h1, hr1⟩ <;> rcases h2 with h2 | ⟨h2, hr2⟩
      · exact Or.inl (by omega)
      · exact Or.inl (by omega)
      · exact Or.inl (by omega)
      · exact Or.inr ⟨by omega, strLeList_trans as bs cs hr1 hr2⟩

theorem pyLe_refl (s : String) : pyLe s s = true := strLeList_refl s.data

theorem pyLe_total (s t : String) : pyLe s t = true ∨ pyLe t s = true :=
  strLeList_total s.data t.data

theorem pyLe_trans {s t u : String} (h1 : pyLe s t = true)
    (h2 : pyLe t u = true) : pyLe s u = true :=
  strLeList_trans s.data t.data u.data h1 h2

instance {α : Type} (key : α → String) : IsTotal α (keyLe key) :=
  ⟨fun a b => pyLe_total (key a) (key b)⟩

instance {α : Type} (key : α → String) : IsTrans α (keyLe key) :=
  ⟨fun _ _ _ => pyLe_trans⟩

instance {α : Type} (key : α → String) : IsRefl α (keyLe key) :=
  ⟨fun a => pyLe_refl (key a)⟩

theorem map_eq_self_of {α : Type} {l : List α} {f : α → α}
    (h : ∀ x ∈ l, f x = x) : l.map f = l := by
  induction l with
  | nil => rfl
  | cons a as ih =>
      simp only [List.map_cons, h a (List.mem_cons_self a as),
        ih (fun x hx => h x (List.mem_cons_of_mem a hx))]

/-- A stable key-based sort leaves the sublist of elements with any fixed
key value in its original relative order. -/
theorem insertionSort_filter_key {α : Type} (key : α → String) (l : List α)
    (k : String) :
    (List.insertionSort (keyLe key) l).filter (fun a => decide (key a = k)) =
      l.filter (fun a => decide (key a = k)) := by
  set p : α → Bool := fun a => decide (key a = k) with hp
  have hsub : List.Sublist (l.filter p) l := List.filter_sublist l
  have hpair : (l.filter p).Pairwise (keyLe key) := by
    apply List.pairwise_of_forall_mem_list
    intro a ha b hb
    have hka : key a = k := by
      have := (List.mem_filter.mp ha).2; simpa [hp] using this
    have hkb : key b = k := by
      have := (List.mem_filter.mp hb).2; simpa [hp] using this
    unfold keyLe
    rw [hka, hkb]
    exact pyLe_refl k
  have h1 : List.Sublist (l.filter p) (List.insertionSort (keyLe key) l) :=
    List.sublist_insertionSort hpair hsub
  have h2 : List.Sublist (l.filter p)
      ((List.insertionSort (keyLe key) l).filter p) := by
    have h3 := h1.filter p
    rwa [List.filter_eq_self.mpr (fun a ha => (List.mem_filter.mp ha).2)] at h3
  have hlen : ((List.insertionSort (keyLe key) l).filter p).length =
      (l.filter p).length :=
    ((List.perm_insertionSort (keyLe key) l).filter p).length_eq
  exact (h2.eq_of_length hlen.symm).symm

/-! ## Except helpers -/

theorem except_bind_ok {ε α β : Type} {x : Except ε α} {f : α → Except ε β}
    {y : β} : (x >>= f) = Except.ok y ↔
      ∃ a, x = Except.ok a ∧ f a = Except.ok y := by
  cases x <;> simp [Bind.bind, Except.bind]

theorem except_bind_err {ε α β : Type} {x : Except ε α} {f : α → Except ε β}
    {e : ε} : (x >>= f) = Except.error e ↔
      x = Except.error e ∨ ∃ a, x = Except.ok a ∧ f a = Except.error e := by
  cases x <;> simp [Bind.bind, Except.bind]

/-! ## Dict lemmas -/

theorem alookup_map_set_self : ∀ (kvs : List (String × Json)) (k : String)
    (v : Json), (alookup kvs k).isSome →
    alookup (kvs.map (fun p => if p.1 = k then (k, v) else p)) k = some v
  | [], k, v => by simp [alookup]
  | p :: ps, k, v => by
      intro hs
      by_cases hp : p.1 = k
      · simp [alookup, hp]
      · rw [List.map_cons, if_neg hp, alookup, if_neg hp]
        apply alookup_map_set_self ps k v
        simpa [alookup, hp] using hs

theorem alookup_append_single : ∀ (kvs : List (String × Json)) (k : String)
    (v : Json), ¬ (alookup kvs k).isSome →
    alookup (kvs ++ [(k, v)]) k = some v
  | [], k, v => by simp [alookup]
  | p :: ps, k, v => by
      intro hs
      have hp : ¬ p.1 = k := by
        intro hk; apply hs; simp [alookup, hk]
      rw [List.cons_append, alookup, if_neg hp]
      apply alookup_append_single ps k v
      intro h; apply hs; simpa [alookup, hp] using h

theorem alookup_dictSet_self (kvs : List (String × Json)) (k : String)
    (v : Json) : alookup (dictSet kvs k v) k = some v := by
  unfold dictSet
  split
  · exact alookup_map_set_self kvs k v (by assumption)
  · exact alookup_append_single kvs k v (by simp_all)

theorem alookup_map_set_ne : ∀ (kvs : List (String × Json)) {k k' : String}
    (v : Json), k' ≠ k →
    alookup (kvs.map (fun p => if p.1 = k then (k, v) else p)) k' = alookup kvs k'
  | [], _, _, _ => by intro _; rfl
  | p :: ps, k, k', v => by
      intro h
      by_cases hp : p.1 = k
      · rw [List.map_cons, if_pos hp, alookup, alookup, if_neg (by simpa using h.symm),
          if_neg (by rw [hp]; exact fun he => h he.symm)]
        exact alookup_map_set_ne ps v h
      · rw [List.map_cons, if_neg hp, alookup, alookup]
        by_cases hc : p.1 = k'
        · rw [if_pos hc, if_pos hc]
        · rw [if_neg hc, if_neg hc]
          exact alookup_map_set_ne ps v h

theorem alookup_append_single_ne : ∀ (kvs : List (String × Json))
    {k k' : String} (v : Json), k' ≠ k →
    alookup (kvs ++ [(k, v)]) k' = alookup kvs k'
  | [], k, k', v => by
      intro h
      have hne : ¬ k = k' := fun he => h he.symm
      simp [alookup, hne]
  | p :: ps, k, k', v => by
      intro h
      rw [List.cons_append, alookup, alookup]
      by_cases hc : p.1 = k'
      · rw [if_pos hc, if_pos hc]
      · rw [if_neg hc, if_neg hc]
        exact alookup_append_single_ne ps v h

theorem alookup_dictSet_ne (kvs : List (String × Json)) {k k' : String}
    (v : Json) (h : k' ≠ k) :
    alookup (dictSet kvs k v) k' = alookup kvs k' := by
  unfold dictSet
  split
  · exact alookup_map_set_ne kvs v h
  · exact alookup_append_single_ne kvs v h

theorem mem_dictSet_eq_key {kvs : List (String × Json)} {k : String} {v : Json}
    {p : String × Json} (hp : p ∈ dictSet kvs k v) (hk : p.1 = k) : p.2 = v := by
  unfold dictSet at hp
  split at hp
  · rcases List.mem_map.mp hp with ⟨q, hq, hqe⟩
    by_cases hq1 : q.1 = k
    · rw [if_pos hq1] at hqe
      cases hqe; rfl
    · rw [if_neg hq1] at hqe
      subst hqe
      exact absurd hk hq1
  · rcases List.mem_append.mp hp with h | h
    · rename_i hs
      exfalso
      apply hs
      rw [← hk]
      clear hp hs hk
      induction kvs with
      | nil => simp at h
      | cons q qs ih =>
          rcases List.mem_cons.mp h with h | h
          · subst h; simp [alookup]
          · by_cases hc : q.1 = p.1 <;> simp [alookup, hc, ih h]
    · simp only [List.mem_singleton] at h
      rw [h]

theorem mem_dictSet_ne_key {kvs : List (String × Json)} {k : String} {v : Json}
    {p : String × Json} (hp : p ∈ dictSet kvs k v) (hk : p.1 ≠ k) : p ∈ kvs := by
  unfold dictSet at hp
  split at hp
  · rcases List.mem_map.mp hp with ⟨q, hq, hqe⟩
    by_cases hq1 : q.1 = k
    · rw [if_pos hq1] at hqe
      subst hqe
      exact absurd rfl hk
    · rw [if_neg hq1] at hqe
      subst hqe
      exact hq
  · rcases List.mem_append.mp hp with h | h
    · exact h
    · simp only [List.mem_singleton] at h
      subst h
      exact absurd rfl hk

theorem dictSet_self {kvs : List (String × Json)} {k : String} {v : Json}
    (hval : ∀ p ∈ kvs, p.1 = k → p.2 = v)
    (hsome : (alookup kvs k).isSome) : dictSet kvs k v = kvs := by
  unfold dictSet
  rw [if_pos hsome]
  apply map_eq_self_of
  intro p hp
  by_cases hc : p.1 = k
  · rw [if_pos hc]
    have h2 := hval p hp hc
    rw [← hc, ← h2]
  · rw [if_neg hc]

theorem keys_dictSet_present {kvs : List (String × Json)} {k : String}
    (v : Json) (hsome : (alookup kvs k).isSome) :
    (dictSet kvs k v).map Prod.fst = kvs.map Prod.fst := by
  unfold dictSet
  rw [if_pos hsome, List.map_map]
  apply List.map_congr_left
  intro p _
  by_cases hc : p.1 = k
  · simp only [Function.comp, if_pos hc]
    exact hc.symm
  · simp only [Function.comp, if_neg hc]

theorem alookup_isSome_iff_mem_keys {kvs : List (String × Json)} {k : String} :
    (alookup kvs k).isSome ↔ k ∈ kvs.map Prod.fst := by
  induction kvs with
  | nil => simp [alookup]
  | cons p ps ih =>
      rw [List.map_cons]
      by_cases hc : p.1 = k
      · simp [alookup, hc]
      · rw [alookup, if_neg hc, List.mem_cons]
        constructor
        · intro hs
          exact Or.inr (ih.mp hs)
        · intro hor
          rcases hor with he | hm
          · exact absurd he.symm hc
          · exact ih.mpr hm

/-! ## Claim C10: cache mutation frame of `write_file_content` -/

/-- C10: `write_file_content` mutates the four cached values only on a
successful write and only for the tracked path written: a successful write
to the data path sets the cached data raw text and clears only the cached
parsed data; symmetrically for the schema path; a write to any other path,
or a failed write, leaves all four cached values unchanged. -/
theorem write_file_content_cache_frame (b : WMNBase) (fs : FileSystem)
    (p c : String) (hne : b.data_path ≠ b.schema_path) :
    (fs.canWrite p = true → p = b.data_path →
      write_file_content b fs p c =
        (Except.ok (), { b with data_raw := some c, data_parsed := none },
          fsWrite fs p c)) ∧
    (fs.canWrite p = true → p = b.schema_path →
      write_file_content b fs p c =
        (Except.ok (), { b with schema_raw := some c, schema_parsed := none },
          fsWrite fs p c)) ∧
    (fs.canWrite p = true → p ≠ b.data_path → p ≠ b.schema_path →
      write_file_content b fs p c = (Except.ok (), b, fsWrite fs p c)) ∧
    (fs.canWrite p = false →
      write_file_content b fs p c =
        (Except.error (WMNErr.fileError ("Failed to write " ++ p)), b, fs)) := by
  refine ⟨?_, ?_, ?_, ?_⟩
  · intro hw hp
    subst hp
    simp [write_file_content, hw]
  · intro hw hp
    subst hp
    have hnd : ¬ b.schema_path = b.data_path := fun he => hne he.symm
    simp [write_file_content, hw, hnd]
  · intro hw hd hs
    simp [write_file_content, hw, hd, hs]
  · intro hw
    simp [write_file_content, hw]

theorem write_file_content_cache_frame_witness :
    write_file_content
      ⟨"wmn-data.json", "wmn-data-schema.json", none, none, none, none⟩
      ⟨fun _ => none, fun _ => true⟩ "wmn-data.json" "x" =
      (Except.ok (),
        ⟨"wmn-data.json", "wmn-data-schema.json", some "x", none, none, none⟩,
        fsWrite ⟨fun _ => none, fun _ => true⟩ "wmn-data.json" "x") :=
  (write_file_content_cache_frame
    ⟨"wmn-data.json", "wmn-data-schema.json", none, none, none, none⟩
    ⟨fun _ => none, fun _ => true⟩ "wmn-data.json" "x" (by decide)).1 rfl rfl

/-! ## Claim C2: hash transition correctness -/

/-- Helper: a permitted write succeeds and lands the content in the file
system. -/
theorem write_file_content_ok (b : WMNBase) (fs : FileSystem) (p c : String)
    (hw : fs.canWrite p = true) :
    ∃ b', write_file_content b fs p c = (Except.ok (), b', fsWrite fs p c) := by
  unfold write_file_content
  rw [if_pos hw]
  exact ⟨_, rfl⟩

/-- C2: `update_hash_file` returns NEW (previous digest absent) when no
readable digest file exists; returns UNCHANGED with equal digests and
performs no write when the stored digest equals the new digest; otherwise
writes the new digest plus a trailing newline to the sibling digest file
and returns UPDATED with both differing digests. -/
theorem update_hash_file_transitions (hash : String → String) (b : WMNBase)
    (fs : FileSystem) (target data : String) :
    (fs.read (get_hash_file_path target) = none →
      fs.canWrite (get_hash_file_path target) = true →
      ∃ b', update_hash_file hash b fs target data =
        (Except.ok ⟨target, HashStatus.NEW, hash data, none⟩, b',
          fsWrite fs (get_hash_file_path target) (hash data ++ "\n"))) ∧
    ((fs.read (get_hash_file_path target)).map pyStrip = some (hash data) →
      update_hash_file hash b fs target data =
        (Except.ok ⟨target, HashStatus.UNCHANGED, hash data, some (hash data)⟩,
          b, fs)) ∧
    (∀ prev, (fs.read (get_hash_file_path target)).map pyStrip = some prev →
      prev ≠ hash data →
      fs.canWrite (get_hash_file_path target) = true →
      ∃ b', update_hash_file hash b fs target data =
        (Except.ok ⟨target, HashStatus.UPDATED, hash data, some prev⟩, b',
          fsWrite fs (get_hash_file_path target) (hash data ++ "\n"))) := by
  refine ⟨?_, ?_, ?_⟩
  · intro hr hw
    obtain ⟨b', hb'⟩ :=
      write_file_content_ok b fs (get_hash_file_path target) (hash data ++ "\n") hw
    refine ⟨b', ?_⟩
    simp [update_hash_file, hr, hb']
  · intro hr
    simp [update_hash_file, hr]
  · intro prev hr hne hw
    obtain ⟨b', hb'⟩ :=
      write_file_content_ok b fs (get_hash_file_path target) (hash data ++ "\n") hw
    refine ⟨b', ?_⟩
    have hps : ¬ some prev = some (hash data) := by
      intro he; exact hne (Option.some.inj he)
    simp [update_hash_file, hr, hb', hps, Option.isNone]

theorem update_hash_file_transitions_witness :
    (fun fs : FileSystem =>
      ∃ b', update_hash_file (fun s => s) ⟨"d", "s", none, none, none, none⟩ fs "f" "t" =
        (Except.ok ⟨"f", HashStatus.NEW, "t", none⟩, b',
          fsWrite fs (get_hash_file_path "f") ("t" ++ "\n")))
      ⟨fun _ => none, fun _ => true⟩ :=
  (update_hash_file_transitions (fun s => s) ⟨"d", "s", none, none, none, none⟩
    ⟨fun _ => none, fun _ => true⟩ "f" "t").1 rfl rfl

/-! ## Claim C8: write-skip behaviour of `format_file` -/

/-- C8 (amended): `format_file` writes and reports changed exactly when
the formatter's output differs from the given previous raw text; calling
it twice in a row, feeding the second call the first call's output text,
writes exactly once when the file was not already canonical and zero
times when it was, the second call reporting unchanged. -/
theorem format_file_write_skip (b : WMNBase) (fs : FileSystem)
    (s raw p : String) :
    (raw = s → format_file b fs (Except.ok s) raw p = (Except.ok false, b, fs)) ∧
    (raw ≠ s → fs.canWrite p = true →
      ∃ b', format_file b fs (Except.ok s) raw p =
          (Except.ok true, b', fsWrite fs p s) ∧
        format_file b' (fsWrite fs p s) (Except.ok s) s p =
          (Except.ok false, b', fsWrite fs p s)) := by
  constructor
  · intro he
    simp [format_file, he]
  · intro hne hw
    obtain ⟨b', hb'⟩ := write_file_content_ok b fs p s hw
    refine ⟨b', ?_, ?_⟩
    · simp [format_file, hne, hb']
    · simp [format_file]

/-- C8 counterexample to the claim as stated: on an already-canonical
file (previous raw text equal to the formatter output) the first call
performs no write and reports unchanged, so "writes exactly once (on the
first call)" is false. -/
theorem format_file_write_skip_counterexample :
    format_file ⟨"wmn-data.json", "wmn-data-schema.json", none, none, none, none⟩
      ⟨fun _ => none, fun _ => true⟩ (Except.ok "x") "x" "wmn-data.json" =
      (Except.ok false,
        ⟨"wmn-data.json", "wmn-data-schema.json", none, none, none, none⟩,
        ⟨fun _ => none, fun _ => true⟩) := rfl

theorem format_file_write_skip_witness :
    (fun fs : FileSystem =>
      ∃ b', format_file ⟨"d", "s", none, none, none, none⟩ fs
          (Except.ok "new") "old" "p" = (Except.ok true, b', fsWrite fs "p" "new") ∧
        format_file b' (fsWrite fs "p" "new") (Except.ok "new") "new" "p" =
          (Except.ok false, b', fsWrite fs "p" "new"))
      ⟨fun _ => none, fun _ => true⟩ :=
  (format_file_write_skip ⟨"d", "s", none, none, none, none⟩
    ⟨fun _ => none, fun _ => true⟩ "new" "old" "p").2 (by decide) rfl

/-! ## Claim C7: schema error on missing/malformed site-property declaration -/

/-- Whether a key-order derivation result is a `WMNSchemaError`. -/
def resultIsSchemaError : Except WMNErr (List String) → Bool
  | Except.error (WMNErr.schemaError _) => true
  | _ => false

/-- C7 counterexample to the claim as stated: the schema
`{"properties": 5}` has no extractable site-properties declaration, yet
`_get_site_key_order` dies with an uncaught `AttributeError` (on
`5 .get("sites", {})`), not with a `WMNSchemaError`. -/
theorem get_site_key_order_counterexample :
    get_site_key_order (Json.obj [("properties", Json.num 5)]) =
      Except.error (WMNErr.pyError "AttributeError: object has no attribute get") ∧
    resultIsSchemaError
      (get_site_key_order (Json.obj [("properties", Json.num 5)])) = false :=
  ⟨rfl, rfl⟩

/-- C7 (amended): when the `.get` chain itself runs without an
`AttributeError` (every intermediate it dereferences is a mapping), a
missing/null declaration at `properties.sites.items.properties`, or one
that is not itself a mapping, makes the key-order derivation (and hence
`format_data`) fail with a `WMNSchemaError`. -/
theorem get_site_key_order_schema_error (schema : Json) (v : Json)
    (hchain : site_schema_lookup schema = Except.ok v)
    (hbad : v = Json.null ∨ ∀ kvs, v ≠ Json.obj kvs) :
    ∃ msg, get_site_key_order schema = Except.error (WMNErr.schemaError msg) := by
  unfold get_site_key_order
  rw [hchain]
  cases v with
  | null => exact ⟨_, rfl⟩
  | obj kvs =>
      rcases hbad with h | h
      · cases h
      · exact absurd rfl (h kvs)
  | bool b => exact ⟨_, by cases b <;> rfl⟩
  | num n => exact ⟨_, rfl⟩
  | str s => exact ⟨_, rfl⟩
  | arr xs => exact ⟨_, rfl⟩

theorem get_site_key_order_schema_error_witness :
    site_schema_lookup (Json.obj []) = Except.ok Json.null ∧
    ∃ msg, get_site_key_order (Json.obj []) =
      Except.error (WMNErr.schemaError msg) :=
  ⟨rfl, get_site_key_order_schema_error (Json.obj []) Json.null rfl (Or.inl rfl)⟩

/-! ## Claim C9: validation-finding snippet totality -/

/-- C9 counterexample to the claim as stated: for a violation at the
dataset root (`absolute_path = []`) walking the dataset locates the
concrete non-null dataset itself, yet the finding's snippet is absent
because of the `if error.absolute_path:` truthiness guard. -/
theorem format_validation_error_counterexample :
    (format_validation_error (Json.obj [("a", Json.num 1)])
        ⟨"msg", "$", []⟩).data = none ∧
    walkPath (Json.obj [("a", Json.num 1)]) [] =
      some (Json.obj [("a", Json.num 1)]) ∧
    Json.obj [("a", Json.num 1)] ≠ Json.null :=
  ⟨rfl, rfl, by decide⟩

/-- C9 (amended): constructing the finding never raises (it is a total
function), and it carries a pretty-printed snippet exactly when the
violation's path is non-empty and walking the dataset along it locates a
concrete non-null value; that snippet is the `json.dumps` rendering of
the located value. Null values, lookup failures, and empty paths yield a
finding with no snippet. -/
theorem format_validation_error_snippet (data : Json) (error : ValidationError) :
    (format_validation_error data error).data ≠ none ↔
      (error.absolute_path ≠ [] ∧
        ∃ v, walkPath data error.absolute_path = some v ∧ v ≠ Json.null ∧
          (format_validation_error data error).data = some (dumps v)) := by
  unfold format_validation_error
  by_cases hemp : error.absolute_path.isEmpty
  · have : error.absolute_path = [] := List.isEmpty_iff.mp hemp
    simp [hemp, this]
  · have hne : error.absolute_path ≠ [] := by
      intro h; rw [h] at hemp; exact hemp rfl
    cases hw : walkPath data error.absolute_path with
    | none => simp [hemp, hw]
    | some v =>
        by_cases hv : v = Json.null
        · subst hv
          simp [hemp, hw]
        · simp [hemp, hw, hv, hne]

theorem format_validation_error_snippet_witness :
    (format_validation_error (Json.obj [("a", Json.num 1)])
        ⟨"m", "$.a", [PathSeg.key "a"]⟩).data ≠ none :=
  (format_validation_error_snippet (Json.obj [("a", Json.num 1)])
    ⟨"m", "$.a", [PathSeg.key "a"]⟩).mpr
    ⟨by decide, Json.num 1, rfl, by decide, rfl⟩

/-! ## Claim C6: duplicate detection -/

theorem mem_foldl_dedup (l : List Json) (acc : List Json) (x : Json) :
    (x ∈ l.foldl (fun acc x => if x ∈ acc then acc else acc ++ [x]) acc) ↔
      x ∈ acc ∨ x ∈ l := by
  induction l generalizing acc with
  | nil => simp
  | cons a as ih =>
      simp only [List.foldl_cons]
      by_cases ha : a ∈ acc
      · rw [if_pos ha, ih]
        constructor
        · rintro (h | h)
          · exact Or.inl h
          · exact Or.inr (List.mem_cons_of_mem a h)
        · rintro (h | h)
          · exact Or.inl h
          · rcases List.mem_cons.mp h with he | hm
            · subst he; exact Or.inl ha
            · exact Or.inr hm
      · rw [if_neg ha, ih]
        simp only [List.mem_append, List.mem_singleton, List.mem_cons]
        tauto

theorem mem_firstDedup (l : List Json) (x : Json) :
    x ∈ firstDedup l ↔ x ∈ l := by
  unfold firstDedup
  rw [mem_foldl_dedup]
  simp

/-- C6: `validate_duplicates` returns exactly the set of truthy (non-empty)
site name values occurring more than once among the collected names:
membership in the result is equivalent to a count of at least two, and
every returned value is truthy. -/
theorem validate_duplicates_exact (kvs : List (String × Json))
    (sites : List Json) (site_objs : List (List (String × Json)))
    (dups : List Json) (x : Json)
    (hsites : (alookup kvs "sites").getD (Json.arr []) = Json.arr sites)
    (hobjs : asObjList sites = some site_objs)
    (hok : validate_duplicates kvs = Except.ok dups) :
    (x ∈ dups ↔ 1 < (collected_site_names site_objs).count x) ∧
    (x ∈ dups → pyTruthy x = true) := by
  unfold validate_duplicates at hok
  rw [hsites] at hok
  simp only [hobjs, Except.ok.injEq] at hok
  subst hok
  constructor
  · rw [List.mem_filter, mem_firstDedup]
    constructor
    · intro h
      simpa using h.2
    · intro h
      refine ⟨List.count_pos_iff.mp (by omega), by simpa using h⟩
  · intro h
    rw [List.mem_filter, mem_firstDedup] at h
    have hx := h.1
    unfold collected_site_names at hx
    rcases List.mem_filterMap.mp hx with ⟨s, _, hs⟩
    by_cases ht : pyTruthy ((alookup s "name").getD Json.null)
    · rw [if_pos ht] at hs
      cases hs
      exact ht
    · rw [if_neg ht] at hs
      cases hs

theorem validate_duplicates_exact_witness :
    validate_duplicates
        [("sites", Json.arr [Json.obj [("name", Json.str "A")],
          Json.obj [("name", Json.str "b")], Json.obj [("name", Json.str "A")]])] =
      Except.ok [Json.str "A"] ∧
    ((Json.str "A" ∈ [Json.str "A"] ↔
        1 < (collected_site_names [[("name", Json.str "A")],
          [("name", Json.str "b")], [("name", Json.str "A")]]).count (Json.str "A")) ∧
      (Json.str "A" ∈ [Json.str "A"] → pyTruthy (Json.str "A") = true)) :=
  ⟨rfl,
    validate_duplicates_exact
      [("sites", Json.arr [Json.obj [("name", Json.str "A")],
        Json.obj [("name", Json.str "b")], Json.obj [("name", Json.str "A")]])]
      [Json.obj [("name", Json.str "A")], Json.obj [("name", Json.str "b")],
        Json.obj [("name", Json.str "A")]]
      [[("name", Json.str "A")], [("name", Json.str "b")], [("name", Json.str "A")]]
      [Json.str "A"] (Json.str "A") rfl rfl rfl⟩

/-! ## Lemmas about `schemaReorder` and `reorder_site_keys` -/

theorem alookup_schemaReorder_not_mem : ∀ (ko : List String)
    (m : List (String × Json)) {k : String}, k ∉ ko →
    alookup (schemaReorder ko m) k = none
  | [], _, _ => fun _ => rfl
  | k0 :: rest, m, k => by
      intro hk
      have hk0 : ¬ k0 = k := fun he => hk (he ▸ List.mem_cons_self k0 rest)
      have hkr : k ∉ rest := fun hm => hk (List.mem_cons_of_mem k0 hm)
      unfold schemaReorder
      rw [List.filterMap_cons]
      cases halo : alookup m k0 with
      | none => exact alookup_schemaReorder_not_mem rest m hkr
      | some v =>
          simp only [Option.map_some']
          rw [alookup, if_neg hk0]
          exact alookup_schemaReorder_not_mem rest m hkr

theorem alookup_schemaReorder_mem : ∀ (ko : List String)
    (m : List (String × Json)) {k : String}, k ∈ ko →
    alookup (schemaReorder ko m) k = alookup m k
  | [], _, _ => fun hk => absurd hk (List.not_mem_nil _)
  | k0 :: rest, m, k => by
      intro hk
      unfold schemaReorder
      rw [List.filterMap_cons]
      cases halo : alookup m k0 with
      | none =>
          by_cases he : k = k0
          · subst he
            rw [halo]
            by_cases hr : k ∈ rest
            · exact alookup_schemaReorder_mem rest m hr |>.trans halo
            · exact alookup_schemaReorder_not_mem rest m hr
          · have hr : k ∈ rest := by
              rcases List.mem_cons.mp hk with h | h
              · exact absurd h he
              · exact h
            exact alookup_schemaReorder_mem rest m hr
      | some v =>
          simp only [Option.map_some']
          by_cases he : k0 = k
          · rw [alookup, if_pos he, ← he, halo]
          · rw [alookup, if_neg he]
            have hr : k ∈ rest := by
              rcases List.mem_cons.mp hk with h | h
              · exact absurd h.symm he
              · exact h
            exact alookup_schemaReorder_mem rest m hr

theorem mem_schemaReorder : ∀ {ko : List String} {m : List (String × Json)}
    {p : String × Json}, p ∈ schemaReorder ko m → alookup m p.1 = some p.2
  | [], _, _ => fun hp => absurd hp (List.not_mem_nil _)
  | k0 :: rest, m, p => by
      intro hp
      unfold schemaReorder at hp
      rw [List.filterMap_cons] at hp
      cases halo : alookup m k0 with
      | none =>
          rw [halo] at hp
          exact mem_schemaReorder hp
      | some v =>
          rw [halo] at hp
          simp only [Option.map_some'] at hp
          rcases List.mem_cons.mp hp with h | h
          · subst h
            exact halo
          · exact mem_schemaReorder h

theorem keys_schemaReorder : ∀ (ko : List String) (m : List (String × Json)),
    (schemaReorder ko m).map Prod.fst =
      ko.filter (fun k => (alookup m k).isSome)
  | [], _ => rfl
  | k0 :: rest, m => by
      unfold schemaReorder
      rw [List.filterMap_cons, List.filter_cons]
      cases halo : alookup m k0 with
      | none => simpa using keys_schemaReorder rest m
      | some v =>
          simp only [Option.map_some', Option.isSome_some, List.map_cons,
            if_pos trivial, cond_true]
          exact congrArg (k0 :: ·) (keys_schemaReorder rest m)

theorem filterMap_congr_of_mem {α β : Type} {l : List α} {f g : α → Option β}
    (h : ∀ a ∈ l, f a = g a) : l.filterMap f = l.filterMap g := by
  induction l with
  | nil => rfl
  | cons a as ih =>
      rw [List.filterMap_cons, List.filterMap_cons,
        h a (List.mem_cons_self a as),
        ih (fun x hx => h x (List.mem_cons_of_mem a hx))]

theorem reorder_site_keys_ok_iff {m : List (String × Json)} {ko : List String}
    {r : List (String × Json)} :
    reorder_site_keys m ko = Except.ok r ↔
      (∀ k ∈ m.map Prod.fst, k ∈ ko) ∧ r = schemaReorder ko m := by
  unfold reorder_site_keys
  by_cases hc :
      ((m.map Prod.fst).filter (fun k => !(decide (k ∈ ko)))).isEmpty = true
  · rw [if_pos hc]
    have hall : ∀ k ∈ m.map Prod.fst, k ∈ ko := by
      intro k hk
      by_contra hnk
      have : k ∈ (m.map Prod.fst).filter (fun k => !(decide (k ∈ ko))) :=
        List.mem_filter.mpr ⟨hk, by simp [hnk]⟩
      rw [List.isEmpty_iff.mp hc] at this
      exact absurd this (List.not_mem_nil k)
    simp only [Except.ok.injEq]
    constructor
    · intro he
      exact ⟨hall, he.symm⟩
    · intro ⟨_, he⟩
      exact he.symm
  · rw [if_neg hc]
    constructor
    · intro h
      cases h
    · intro ⟨hall, _⟩
      exfalso
      apply hc
      rw [List.isEmpty_iff]
      rw [List.filter_eq_nil_iff]
      intro k hk
      simp [hall k hk]

theorem reorder_site_keys_err {m : List (String × Json)} {ko : List String}
    {e : WMNErr} (h : reorder_site_keys m ko = Except.error e) :
    e = WMNErr.formatError "Unknown keys found in site data" := by
  unfold reorder_site_keys at h
  by_cases hc :
      ((m.map Prod.fst).filter (fun k => !(decide (k ∈ ko)))).isEmpty = true
  · rw [if_pos hc] at h
    cases h
  · rw [if_neg hc] at h
    cases h
    rfl

/-! ## Lemmas about `sort_site_headers` and `format_site` -/

theorem getD_null_of_ne {o : Option Json} {v : Json}
    (h : o.getD Json.null = v) (hv : v ≠ Json.null) : o = some v := by
  cases o with
  | none => exact absurd h.symm hv
  | some w => rw [Option.getD] at h; rw [h]

theorem keys_sort_site_headers (s : List (String × Json)) :
    (sort_site_headers s).map Prod.fst = s.map Prod.fst := by
  unfold sort_site_headers
  split
  · rename_i hs hm
    by_cases he : hs.isEmpty
    · rw [if_pos he]
    · rw [if_neg he]
      apply keys_dictSet_present
      rw [getD_null_of_ne hm (by simp)]
      rfl
  · rfl

theorem alookup_sort_site_headers_ne (s : List (String × Json)) {k : String}
    (hk : k ≠ "headers") : alookup (sort_site_headers s) k = alookup s k := by
  unfold sort_site_headers
  split
  · rename_i hs hm
    by_cases he : hs.isEmpty
    · rw [if_pos he]
    · rw [if_neg he]
      exact alookup_dictSet_ne s _ hk
  · rfl

theorem insertionSort_key_idem {α : Type} (key : α → String) (l : List α) :
    List.insertionSort (keyLe key) (List.insertionSort (keyLe key) l) =
      List.insertionSort (keyLe key) l :=
  List.Sorted.insertionSort_eq (List.sorted_insertionSort (keyLe key) l)

theorem headers_of_sort_site_headers {s : List (String × Json)}
    {hs : List (String × Json)}
    (h : alookup (sort_site_headers s) "headers" = some (Json.obj hs)) :
    List.insertionSort (keyLe headerKey) hs = hs ∨ hs = [] := by
  unfold sort_site_headers at h
  split at h
  · rename_i hs0 hm
    by_cases he : hs0.isEmpty
    · rw [if_pos he] at h
      rw [getD_null_of_ne hm (by simp)] at h
      cases h
      exact Or.inr (List.isEmpty_iff.mp he)
    · rw [if_neg he] at h
      rw [alookup_dictSet_self] at h
      injection h with h2
      injection h2 with h3
      rw [← h3]
      exact Or.inl (insertionSort_key_idem headerKey hs0)
  · rename_i hm
    exfalso
    exact hm hs (by rw [h]; rfl)

theorem format_site_ok_shape {s : List (String × Json)} {ko : List String}
    {r : List (String × Json)} (h : format_site s ko = Except.ok r) :
    (∀ k ∈ s.map Prod.fst, k ∈ ko) ∧ r = schemaReorder ko (sort_site_headers s) := by
  unfold format_site at h
  rw [reorder_site_keys_ok_iff] at h
  rwa [keys_sort_site_headers] at h

theorem format_site_name_preserved {s : List (String × Json)} {ko : List String}
    {r : List (String × Json)} (h : format_site s ko = Except.ok r) :
    alookup r "name" = alookup s "name" := by
  obtain ⟨hsub, hr⟩ := format_site_ok_shape h
  subst hr
  by_cases hmem : "name" ∈ ko
  · rw [alookup_schemaReorder_mem ko _ hmem]
    exact alookup_sort_site_headers_ne s (by decide)
  · rw [alookup_schemaReorder_not_mem ko _ hmem]
    cases halo : alookup s "name" with
    | none => rfl
    | some v =>
        exfalso
        apply hmem
        apply hsub
        rw [← alookup_isSome_iff_mem_keys, halo]
        rfl

theorem format_site_key_preserved {s : List (String × Json)} {ko : List String}
    {r : List (String × Json)} (h : format_site s ko = Except.ok r) :
    siteNameKey r = siteNameKey s := by
  unfold siteNameKey
  rw [format_site_name_preserved h]

theorem format_site_idem {s : List (String × Json)} {ko : List String}
    {r : List (String × Json)} (h : format_site s ko = Except.ok r) :
    format_site r ko = Except.ok r := by
  obtain ⟨hsub, hr⟩ := format_site_ok_shape h
  have hsort : sort_site_headers r = r := by
    unfold sort_site_headers
    split
    · rename_i hs hm
      by_cases he : hs.isEmpty
      · rw [if_pos he]
      · rw [if_neg he]
        have hlook : alookup r "headers" = some (Json.obj hs) :=
          getD_null_of_ne hm (by simp)
        have hmem : "headers" ∈ ko := by
          by_contra hnm
          rw [hr, alookup_schemaReorder_not_mem ko _ hnm] at hlook
          cases hlook
        have hm2 : alookup (sort_site_headers s) "headers" = some (Json.obj hs) := by
          rw [hr, alookup_schemaReorder_mem ko _ hmem] at hlook
          exact hlook
        rcases headers_of_sort_site_headers hm2 with hss | hemp
        · rw [hss]
          apply dictSet_self
          · intro p hp hph
            rw [hr] at hp
            have h4 := mem_schemaReorder hp
            rw [hph, hm2] at h4
            exact (Option.some.inj h4).symm
          · rw [hlook]
            rfl
        · exfalso
          rw [hemp] at he
          exact he rfl
    · rfl
  unfold format_site
  rw [hsort, reorder_site_keys_ok_iff]
  constructor
  · intro k hk
    rw [hr, keys_schemaReorder] at hk
    exact (List.mem_filter.mp hk).1
  · rw [hr]
    apply filterMap_congr_of_mem
    intro k hk
    rw [alookup_schemaReorder_mem ko _ hk]

/-! ## Lemmas about `format_sites_list` -/

theorem format_sites_list_ok : ∀ {ko : List String}
    {l : List (List (String × Json))} {js : List Json},
    format_sites_list ko l = Except.ok js →
    ∃ rs, js = rs.map Json.obj ∧
      List.Forall₂ (fun s r => format_site s ko = Except.ok r) l rs := by
  intro ko l
  induction l with
  | nil =>
      intro js h
      unfold format_sites_list at h
      cases h
      exact ⟨[], rfl, List.Forall₂.nil⟩
  | cons s rest ih =>
      intro js h
      unfold format_sites_list at h
      rw [except_bind_ok] at h
      obtain ⟨r, hr, h⟩ := h
      rw [except_bind_ok] at h
      obtain ⟨js', hjs', h⟩ := h
      cases h
      obtain ⟨rs, hrs, hfa⟩ := ih hjs'
      exact ⟨r :: rs, by rw [hrs]; rfl, List.Forall₂.cons hr hfa⟩

theorem format_sites_list_of_forall : ∀ {ko : List String}
    {rs : List (List (String × Json))},
    (∀ r ∈ rs, format_site r ko = Except.ok r) →
    format_sites_list ko rs = Except.ok (rs.map Json.obj) := by
  intro ko rs
  induction rs with
  | nil => intro _; rfl
  | cons r rest ih =>
      intro h
      unfold format_sites_list
      rw [h r (List.mem_cons_self r rest),
        ih (fun x hx => h x (List.mem_cons_of_mem r hx))]
      rfl

theorem format_site_err {s : List (String × Json)} {ko : List String}
    {e : WMNErr} (h : format_site s ko = Except.error e) :
    e = WMNErr.formatError "Unknown keys found in site data" := by
  unfold format_site at h
  exact reorder_site_keys_err h

theorem format_sites_list_err : ∀ {ko : List String}
    {l : List (List (String × Json))} {e : WMNErr},
    format_sites_list ko l = Except.error e →
    e = WMNErr.formatError "Unknown keys found in site data" := by
  intro ko l
  induction l with
  | nil =>
      intro e h
      cases h
  | cons s rest ih =>
      intro e h
      unfold format_sites_list at h
      rw [except_bind_err] at h
      rcases h with h | ⟨r, _, h⟩
      · exact format_site_err h
      · rw [except_bind_err] at h
        rcases h with h | ⟨js', _, h⟩
        · exact ih h
        · cases h

theorem format_sites_list_not_ok : ∀ {ko : List String}
    {l : List (List (String × Json))},
    (∃ s ∈ l, ∃ k ∈ s.map Prod.fst, k ∉ ko) →
    ∀ js, format_sites_list ko l ≠ Except.ok js := by
  intro ko l
  induction l with
  | nil =>
      rintro ⟨s, hs, _⟩
      exact absurd hs (List.not_mem_nil s)
  | cons s0 rest ih =>
      rintro ⟨s, hs, k, hk, hkn⟩ js h
      unfold format_sites_list at h
      rw [except_bind_ok] at h
      obtain ⟨r, hr, h⟩ := h
      rcases List.mem_cons.mp hs with he | hmem
      · subst he
        obtain ⟨hsub, _⟩ := format_site_ok_shape hr
        exact hkn (hsub k hk)
      · rw [except_bind_ok] at h
        obtain ⟨js', hjs', _⟩ := h
        exact ih ⟨s, hmem, k, hk, hkn⟩ js' hjs'

/-! ## Lemmas about `format_string_array` -/

theorem asStrings_some : ∀ {items : List Json} {strs : List String},
    asStrings items = some strs → items = strs.map Json.str := by
  intro items
  induction items with
  | nil =>
      intro strs h
      cases h
      rfl
  | cons x rest ih =>
      intro strs h
      cases x with
      | str s =>
          have he : asStrings (Json.str s :: rest) =
              Option.map (fun x => s :: x) (asStrings rest) := rfl
          rw [he] at h
          cases hrest : asStrings rest with
          | none => rw [hrest] at h; cases h
          | some strs' =>
              rw [hrest] at h
              simp only [Option.map_some'] at h
              cases h
              rw [ih hrest]
              rfl
      | null => cases h
      | bool b => cases h
      | num n => cases h
      | arr xs => cases h
      | obj kvs => cases h

theorem asStrings_map_str : ∀ (strs : List String),
    asStrings (strs.map Json.str) = some strs
  | [] => rfl
  | s :: rest => by
      rw [List.map_cons]
      unfold asStrings
      rw [asStrings_map_str rest]
      rfl

theorem asObjList_some : ∀ {js : List Json}
    {rs : List (List (String × Json))},
    asObjList js = some rs → js = rs.map Json.obj := by
  intro js
  induction js with
  | nil =>
      intro rs h
      cases h
      rfl
  | cons x rest ih =>
      intro rs h
      cases x with
      | obj kvs =>
          have he : asObjList (Json.obj kvs :: rest) =
              Option.map (fun x => kvs :: x) (asObjList rest) := rfl
          rw [he] at h
          cases hrest : asObjList rest with
          | none => rw [hrest] at h; cases h
          | some rs' =>
              rw [hrest] at h
              simp only [Option.map_some'] at h
              cases h
              rw [ih hrest]
              rfl
      | null => cases h
      | bool b => cases h
      | num n => cases h
      | str s => cases h
      | arr xs => cases h

theorem asObjList_map_obj : ∀ (rs : List (List (String × Json))),
    asObjList (rs.map Json.obj) = some rs
  | [] => rfl
  | r :: rest => by
      rw [List.map_cons]
      unfold asObjList
      rw [asObjList_map_obj rest]
      rfl

theorem format_string_array_ok {kvs kvs' : List (String × Json)} {key : String}
    (h : format_string_array kvs key = Except.ok kvs') :
    ∃ strs, alookup kvs key = some (Json.arr (strs.map Json.str)) ∧
      strs ≠ [] ∧
      strs.all (fun s => !(decide (pyStrip s = ""))) = true ∧
      kvs' = dictSet kvs key
        (Json.arr ((sort_array_alphabetically strs).map Json.str)) := by
  unfold format_string_array at h
  split at h
  · cases h
  · rename_i items hm
    split at h
    · cases h
    · rename_i hne
      split at h
      · rename_i strs hstrs
        split at h
        · rename_i hall
          cases h
          refine ⟨strs, ?_, ?_, hall, rfl⟩
          · rw [getD_null_of_ne hm (by simp), asStrings_some hstrs]
          · intro hnil
            rw [asStrings_some hstrs, hnil] at hne
            exact hne rfl
        · cases h
      · cases h
  · cases h

theorem format_string_array_err {kvs : List (String × Json)} {key : String}
    {e : WMNErr} (h : format_string_array kvs key = Except.error e) :
    ∃ msg, e = WMNErr.formatError msg := by
  unfold format_string_array at h
  split at h
  · cases h; exact ⟨_, rfl⟩
  · split at h
    · cases h; exact ⟨_, rfl⟩
    · split at h
      · split at h
        · cases h
        · cases h; exact ⟨_, rfl⟩
      · cases h; exact ⟨_, rfl⟩
  · cases h; exact ⟨_, rfl⟩

theorem format_string_array_self {kvs2 : List (String × Json)} {key : String}
    {strs : List String}
    (hlook : alookup kvs2 key = some (Json.arr (strs.map Json.str)))
    (hsorted : sort_array_alphabetically strs = strs)
    (hne : strs ≠ [])
    (hall : strs.all (fun s => !(decide (pyStrip s = ""))) = true)
    (hval : ∀ p ∈ kvs2, p.1 = key → p.2 = Json.arr (strs.map Json.str)) :
    format_string_array kvs2 key = Except.ok kvs2 := by
  unfold format_string_array
  rw [hlook]
  simp only [Option.getD_some]
  rw [asStrings_map_str strs]
  have hne2 : (strs.map Json.str).isEmpty = false := by
    cases strs with
    | nil => exact absurd rfl hne
    | cons a as => rfl
  rw [hne2]
  simp only [Bool.false_eq_true, if_false, hall, if_pos trivial, hsorted]
  rw [dictSet_self hval (by rw [hlook]; rfl)]

/-! ## Characterizing `format_sites` and `format_data_value` -/

theorem format_sites_ok {schema : Json} {kvs kvs' : List (String × Json)}
    (h : format_sites schema kvs = Except.ok kvs') :
    ∃ sites site_objs key_order formatted,
      alookup kvs "sites" = some (Json.arr sites) ∧
      asObjList sites = some site_objs ∧
      get_site_key_order schema = Except.ok key_order ∧
      format_sites_list key_order (sort_sites_by_name site_objs) =
        Except.ok formatted ∧
      kvs' = dictSet kvs "sites" (Json.arr formatted) := by
  unfold format_sites at h
  split at h
  · rename_i sites hm
    split at h
    · rename_i site_objs hobjs
      rw [except_bind_ok] at h
      obtain ⟨ko, hko, h⟩ := h
      rw [except_bind_ok] at h
      obtain ⟨formatted, hfmt, h⟩ := h
      cases h
      exact ⟨sites, site_objs, ko, formatted,
        getD_null_of_ne hm (by simp), hobjs, hko, hfmt, rfl⟩
    · cases h
  · cases h

theorem format_data_value_ok {schema d d' : Json}
    (h : format_data_value schema d = Except.ok d') :
    ∃ kvs kvs1 kvs2 kvs3, d = Json.obj kvs ∧
      format_string_array kvs "authors" = Except.ok kvs1 ∧
      format_string_array kvs1 "categories" = Except.ok kvs2 ∧
      format_sites schema kvs2 = Except.ok kvs3 ∧
      d' = Json.obj kvs3 := by
  unfold format_data_value at h
  split at h
  · rename_i kvs
    rw [except_bind_ok] at h
    obtain ⟨kvs1, h1, h⟩ := h
    rw [except_bind_ok] at h
    obtain ⟨kvs2, h2, h⟩ := h
    rw [except_bind_ok] at h
    obtain ⟨kvs3, h3, h⟩ := h
    cases h
    exact ⟨kvs, kvs1, kvs2, kvs3, rfl, h1, h2, h3, rfl⟩
  · cases h

/-! ## Claim C3: strictness on unknown site keys -/

theorem except_ok_bind {ε α β : Type} (a : α) (f : α → Except ε β) :
    (Except.ok a >>= f) = f a := rfl

theorem except_error_bind {ε α β : Type} (e : ε) (f : α → Except ε β) :
    ((Except.error e : Except ε α) >>= f) = Except.error e := rfl

/-- C3: a dataset containing a site with a field name outside the
schema-declared order makes `format_data` fail with a `WMNFormatError`,
and `format_file` run over that formatter performs no write (the state
and file system come back unchanged). Sites are dicts (a non-dict site
crashes the sort key before the strictness check can run). -/
theorem format_data_unknown_key_strict (schema : Json)
    (kvs : List (String × Json)) (sites : List Json)
    (site_objs : List (List (String × Json))) (key_order : List String)
    (s : List (String × Json)) (k : String)
    (hko : get_site_key_order schema = Except.ok key_order)
    (hsites : alookup kvs "sites" = some (Json.arr sites))
    (hobjs : asObjList sites = some site_objs)
    (hs : s ∈ site_objs) (hk : k ∈ s.map Prod.fst) (hkn : k ∉ key_order) :
    (∃ msg, format_data_value schema (Json.obj kvs) =
        Except.error (WMNErr.formatError msg)) ∧
    ∀ raw p b fs, ∃ msg,
      format_file b fs (format_data schema (Json.obj kvs)) raw p =
        (Except.error (WMNErr.formatError msg), b, fs) := by
  have hred : format_data_value schema (Json.obj kvs) =
      (format_string_array kvs "authors" >>= fun kvs1 =>
        format_string_array kvs1 "categories" >>= fun kvs2 =>
          format_sites schema kvs2 >>= fun kvs3 =>
            Except.ok (Json.obj kvs3)) := rfl
  have hmain : ∃ msg, format_data_value schema (Json.obj kvs) =
      Except.error (WMNErr.formatError msg) := by
    cases h1 : format_string_array kvs "authors" with
    | error e =>
        obtain ⟨m, hm⟩ := format_string_array_err h1
        refine ⟨m, ?_⟩
        rw [hred, h1, except_error_bind, hm]
    | ok kvs1 =>
        cases h2 : format_string_array kvs1 "categories" with
        | error e =>
            obtain ⟨m, hm⟩ := format_string_array_err h2
            refine ⟨m, ?_⟩
            rw [hred, h1, except_ok_bind, h2, except_error_bind, hm]
        | ok kvs2 =>
            have hsites2 : alookup kvs2 "sites" = some (Json.arr sites) := by
              obtain ⟨_, _, _, _, hk1⟩ := format_string_array_ok h1
              obtain ⟨_, _, _, _, hk2⟩ := format_string_array_ok h2
              rw [hk2, alookup_dictSet_ne _ _ (by decide),
                hk1, alookup_dictSet_ne _ _ (by decide), hsites]
            have heq : format_sites schema kvs2 =
                (get_site_key_order schema >>= fun ko =>
                  format_sites_list ko (sort_sites_by_name site_objs) >>=
                    fun formatted =>
                      Except.ok (dictSet kvs2 "sites" (Json.arr formatted))) := by
              unfold format_sites
              rw [hsites2]
              simp only [Option.getD_some, hobjs]
            rw [hred, h1, except_ok_bind, h2, except_ok_bind, heq, hko,
              except_ok_bind]
            cases hlist :
                format_sites_list key_order (sort_sites_by_name site_objs) with
            | ok js =>
                exfalso
                refine format_sites_list_not_ok ?_ js hlist
                refine ⟨s, ?_, k, hk, hkn⟩
                unfold sort_sites_by_name
                exact (List.mem_insertionSort (keyLe siteNameKey)).mpr hs
            | error e2 =>
                have he2 := format_sites_list_err hlist
                refine ⟨"Unknown keys found in site data", ?_⟩
                rw [except_error_bind, except_error_bind, he2]
  refine ⟨hmain, ?_⟩
  intro raw p b fs
  obtain ⟨m, hm⟩ := hmain
  refine ⟨m, ?_⟩
  unfold format_data
  rw [hm]
  rfl

/-! ## Claims C4 and C5: sorting and key-order invariants of the output -/

theorem forall2_mem_right {α β : Type} {R : α → β → Prop} :
    ∀ {l : List α} {m : List β}, List.Forall₂ R l m →
      ∀ b ∈ m, ∃ a ∈ l, R a b := by
  intro l m h
  induction h with
  | nil => intro b hb; exact absurd hb (List.not_mem_nil b)
  | cons hR htail ih =>
      intro b hb
      rcases List.mem_cons.mp hb with he | hm
      · subst he
        exact ⟨_, List.mem_cons_self _ _, hR⟩
      · obtain ⟨a, ha, hab⟩ := ih b hm
        exact ⟨a, List.mem_cons_of_mem _ ha, hab⟩

theorem pairwise_of_forall2 {α β : Type} {R : α → β → Prop} {P : α → α → Prop}
    {Q : β → β → Prop} : ∀ {l : List α} {m : List β}, List.Forall₂ R l m →
      l.Pairwise P → (∀ a b a' b', R a a' → R b b' → P a b → Q a' b') →
      m.Pairwise Q := by
  intro l m h
  induction h with
  | nil => intro _ _; exact List.Pairwise.nil
  | cons hR htail ih =>
      intro hp himp
      rcases List.pairwise_cons.mp hp with ⟨hhead, htl⟩
      refine List.pairwise_cons.mpr ⟨?_, ih htl himp⟩
      intro b' hb'
      obtain ⟨x, hx, hRx⟩ := forall2_mem_right htail b' hb'
      exact himp _ _ _ _ hR hRx (hhead x hx)

/-- Sort key of a formatted site as a JSON value (all formatted sites
are objects). -/
def jsonSiteKey : Json → String
  | Json.obj s => siteNameKey s
  | _ => ""

/-- Bundled facts from a successful `format_data_value` about the sites
list of the output, shared by the C1/C4/C5 arguments. -/
theorem format_data_value_sites {schema d d' : Json}
    (hok : format_data_value schema d = Except.ok d') :
    ∃ kvs kvs1 kvs2 kvs3 sites site_objs ko rs,
      d = Json.obj kvs ∧ d' = Json.obj kvs3 ∧
      format_string_array kvs "authors" = Except.ok kvs1 ∧
      format_string_array kvs1 "categories" = Except.ok kvs2 ∧
      alookup kvs "sites" = some (Json.arr sites) ∧
      alookup kvs2 "sites" = some (Json.arr sites) ∧
      asObjList sites = some site_objs ∧
      get_site_key_order schema = Except.ok ko ∧
      List.Forall₂ (fun s r => format_site s ko = Except.ok r)
        (sort_sites_by_name site_objs) rs ∧
      kvs3 = dictSet kvs2 "sites" (Json.arr (rs.map Json.obj)) ∧
      alookup kvs3 "sites" = some (Json.arr (rs.map Json.obj)) := by
  obtain ⟨kvs, kvs1, kvs2, kvs3, hd, h1, h2, h3, hd'⟩ := format_data_value_ok hok
  obtain ⟨sites, site_objs, ko, formatted, hlS, hobjs, hko, hfl, hk3⟩ :=
    format_sites_ok h3
  obtain ⟨rs, hrs, hfa⟩ := format_sites_list_ok hfl
  subst hrs
  have hlS0 : alookup kvs "sites" = some (Json.arr sites) := by
    obtain ⟨_, _, _, _, hk1⟩ := format_string_array_ok h1
    obtain ⟨_, _, _, _, hk2⟩ := format_string_array_ok h2
    rw [hk2, alookup_dictSet_ne _ _ (by decide),
      hk1, alookup_dictSet_ne _ _ (by decide)] at hlS
    exact hlS
  refine ⟨kvs, kvs1, kvs2, kvs3, sites, site_objs, ko, rs,
    hd, hd', h1, h2, hlS0, hlS, hobjs, hko, hfa, hk3, ?_⟩
  rw [hk3, alookup_dictSet_self]

/-- C4: in `format_data` output, sites are ordered by the casefolded
string of their name field (missing name = empty string): adjacent sites
satisfy `key ≤ next key`; and the underlying sort is stable — sites with
equal sort keys keep their relative input order. -/
theorem format_data_sites_sorted_stable (schema d d' : Json)
    (kvs' : List (String × Json)) (js : List Json)
    (hok : format_data_value schema d = Except.ok d')
    (hd' : d' = Json.obj kvs')
    (hsites : alookup kvs' "sites" = some (Json.arr js)) :
    js.Chain' (fun a b => pyLe (jsonSiteKey a) (jsonSiteKey b) = true) ∧
    ∀ (l : List (List (String × Json))) (key : String),
      (sort_sites_by_name l).filter (fun t => decide (siteNameKey t = key)) =
        l.filter (fun t => decide (siteNameKey t = key)) := by
  obtain ⟨kvs, kvs1, kvs2, kvs3, sites, site_objs, ko, rs,
    hd, hd'2, h1, h2, hlS0, hlS, hobjs, hko, hfa, hk3, hlook3⟩ :=
    format_data_value_sites hok
  rw [hd'2] at hd'
  injection hd' with hkv
  subst hkv
  rw [hlook3] at hsites
  injection hsites with hjs
  injection hjs with hjs2
  subst hjs2
  constructor
  · have hsorted : (sort_sites_by_name site_objs).Pairwise (keyLe siteNameKey) :=
      List.sorted_insertionSort (keyLe siteNameKey) site_objs
    have hrs : rs.Pairwise (keyLe siteNameKey) := by
      refine pairwise_of_forall2 hfa hsorted ?_
      intro a b a' b' ha hb hab
      unfold keyLe at hab ⊢
      rw [format_site_key_preserved ha, format_site_key_preserved hb]
      exact hab
    have hmap : (rs.map Json.obj).Pairwise
        (fun a b => pyLe (jsonSiteKey a) (jsonSiteKey b) = true) := by
      rw [List.pairwise_map]
      exact hrs
    exact hmap.chain'
  · intro l key
    unfold sort_sites_by_name
    exact insertionSort_filter_key siteNameKey l key

/-- C5: every site in `format_data` output is an object whose field-name
sequence is the schema-declared order restricted to its own keys, and no
key is fabricated: each output key was a key of the corresponding input
site. -/
theorem format_data_site_key_order (schema d d' : Json)
    (kvs' : List (String × Json)) (js : List Json) (ko : List String)
    (hok : format_data_value schema d = Except.ok d')
    (hd' : d' = Json.obj kvs')
    (hko : get_site_key_order schema = Except.ok ko)
    (hsites : alookup kvs' "sites" = some (Json.arr js)) :
    ∃ kvs0 sites site_objs, d = Json.obj kvs0 ∧
      alookup kvs0 "sites" = some (Json.arr sites) ∧
      asObjList sites = some site_objs ∧
      ∀ j ∈ js, ∃ r, j = Json.obj r ∧
        r.map Prod.fst = ko.filter (fun k => decide (k ∈ r.map Prod.fst)) ∧
        ∃ t ∈ site_objs, ∀ k ∈ r.map Prod.fst, k ∈ t.map Prod.fst := by
  obtain ⟨kvs, kvs1, kvs2, kvs3, sites, site_objs, ko', rs,
    hd, hd'2, h1, h2, hlS0, hlS, hobjs, hko', hfa, hk3, hlook3⟩ :=
    format_data_value_sites hok
  rw [hd'2] at hd'
  injection hd' with hkv
  subst hkv
  rw [hlook3] at hsites
  injection hsites with hjs
  injection hjs with hjs2
  subst hjs2
  rw [hko] at hko'
  injection hko' with hko2
  subst hko2
  refine ⟨kvs, sites, site_objs, hd, hlS0, hobjs, ?_⟩
  intro j hj
  rcases List.mem_map.mp hj with ⟨r, hr, hje⟩
  subst hje
  obtain ⟨t', ht', hfmt⟩ := forall2_mem_right hfa r hr
  obtain ⟨hsub, hr2⟩ := format_site_ok_shape hfmt
  refine ⟨r, rfl, ?_, ?_⟩
  · rw [hr2, keys_schemaReorder]
    apply List.filter_congr
    intro k hk
    by_cases hsome : (alookup (sort_site_headers t') k).isSome
    · simp [hsome, List.mem_filter, hk]
    · simp only [Bool.not_eq_true] at hsome
      simp [hsome, List.mem_filter]
  · refine ⟨t', ?_, ?_⟩
    · unfold sort_sites_by_name at ht'
      exact (List.mem_insertionSort (keyLe siteNameKey)).mp ht'
    · intro k hk
      rw [hr2, keys_schemaReorder] at hk
      have := (List.mem_filter.mp hk).2
      rw [← keys_sort_site_headers]
      rw [← alookup_isSome_iff_mem_keys]
      exact this

/-! ## Claim C1: idempotence of canonicalization -/

theorem formatted_sites_pairwise {ko : List String}
    {site_objs rs : List (List (String × Json))}
    (hfa : List.Forall₂ (fun s r => format_site s ko = Except.ok r)
      (sort_sites_by_name site_objs) rs) :
    rs.Pairwise (keyLe siteNameKey) := by
  have hsorted : (sort_sites_by_name site_objs).Pairwise (keyLe siteNameKey) :=
    List.sorted_insertionSort (keyLe siteNameKey) site_objs
  refine pairwise_of_forall2 hfa hsorted ?_
  intro a b a' b' ha hb hab
  unfold keyLe at hab ⊢
  rw [format_site_key_preserved ha, format_site_key_preserved hb]
  exact hab

theorem sort_array_alphabetically_idem (l : List String) :
    sort_array_alphabetically (sort_array_alphabetically l) =
      sort_array_alphabetically l := by
  unfold sort_array_alphabetically
  exact insertionSort_key_idem caseFold l

theorem sort_array_alphabetically_ne_nil {l : List String} (h : l ≠ []) :
    sort_array_alphabetically l ≠ [] := by
  intro hnil
  apply h
  have hperm := List.perm_insertionSort (keyLe caseFold) l
  unfold sort_array_alphabetically at hnil
  rw [hnil] at hperm
  exact (hperm.symm).eq_nil

theorem sort_array_alphabetically_all {l : List String} {p : String → Bool}
    (h : l.all p = true) : (sort_array_alphabetically l).all p = true := by
  rw [List.all_eq_true] at h ⊢
  intro x hx
  apply h
  unfold sort_array_alphabetically at hx
  exact (List.mem_insertionSort (keyLe caseFold)).mp hx

/-- C1: idempotence of canonicalization. If `format_data` succeeds on a
dataset, running it again on its own output value (what re-parsing the
emitted string yields, since the external JSON codec round-trips) returns
the very same value, and both serialized outputs are the byte-identical
string `dumps d'`. -/
theorem format_data_idem (schema d d' : Json)
    (hok : format_data_value schema d = Except.ok d') :
    format_data_value schema d' = Except.ok d' ∧
    format_data schema d = Except.ok (dumps d') ∧
    format_data schema d' = Except.ok (dumps d') := by
  obtain ⟨kvs, kvs1, kvs2, kvs3, hd, h1, h2, h3, hd'⟩ := format_data_value_ok hok
  obtain ⟨strsA, hlA, hneA, hallA, hk1⟩ := format_string_array_ok h1
  obtain ⟨strsC, hlC, hneC, hallC, hk2⟩ := format_string_array_ok h2
  obtain ⟨sites, site_objs, ko, formatted, hlS, hobjs, hko, hfl, hk3⟩ :=
    format_sites_ok h3
  obtain ⟨rs, hrs, hfa⟩ := format_sites_list_ok hfl
  subst hrs
  subst hd
  subst hd'
  have hlA3 : alookup kvs3 "authors" =
      some (Json.arr ((sort_array_alphabetically strsA).map Json.str)) := by
    rw [hk3, alookup_dictSet_ne _ _ (by decide), hk2,
      alookup_dictSet_ne _ _ (by decide), hk1, alookup_dictSet_self]
  have hlC3 : alookup kvs3 "categories" =
      some (Json.arr ((sort_array_alphabetically strsC).map Json.str)) := by
    rw [hk3, alookup_dictSet_ne _ _ (by decide), hk2, alookup_dictSet_self]
  have hlS3 : alookup kvs3 "sites" = some (Json.arr (rs.map Json.obj)) := by
    rw [hk3, alookup_dictSet_self]
  have hvalA : ∀ p ∈ kvs3, p.1 = "authors" →
      p.2 = Json.arr ((sort_array_alphabetically strsA).map Json.str) := by
    intro p hp hpa
    rw [hk3] at hp
    have hp2 : p ∈ kvs2 := mem_dictSet_ne_key hp (by rw [hpa]; decide)
    rw [hk2] at hp2
    have hp1 : p ∈ kvs1 := mem_dictSet_ne_key hp2 (by rw [hpa]; decide)
    rw [hk1] at hp1
    exact mem_dictSet_eq_key hp1 hpa
  have hvalC : ∀ p ∈ kvs3, p.1 = "categories" →
      p.2 = Json.arr ((sort_array_alphabetically strsC).map Json.str) := by
    intro p hp hpa
    rw [hk3] at hp
    have hp2 : p ∈ kvs2 := mem_dictSet_ne_key hp (by rw [hpa]; decide)
    rw [hk2] at hp2
    exact mem_dictSet_eq_key hp2 hpa
  have hvalS : ∀ p ∈ kvs3, p.1 = "sites" →
      p.2 = Json.arr (rs.map Json.obj) := by
    intro p hp hpa
    rw [hk3] at hp
    exact mem_dictSet_eq_key hp hpa
  have stepA : format_string_array kvs3 "authors" = Except.ok kvs3 :=
    format_string_array_self hlA3 (sort_array_alphabetically_idem strsA)
      (sort_array_alphabetically_ne_nil hneA)
      (sort_array_alphabetically_all hallA) hvalA
  have stepB : format_string_array kvs3 "categories" = Except.ok kvs3 :=
    format_string_array_self hlC3 (sort_array_alphabetically_idem strsC)
      (sort_array_alphabetically_ne_nil hneC)
      (sort_array_alphabetically_all hallC) hvalC
  have hforall : ∀ r ∈ rs, format_site r ko = Except.ok r := by
    intro r hr
    obtain ⟨t, _, hfmt⟩ := forall2_mem_right hfa r hr
    exact format_site_idem hfmt
  have hsortrs : sort_sites_by_name rs = rs := by
    unfold sort_sites_by_name
    exact List.Sorted.insertionSort_eq (formatted_sites_pairwise hfa)
  have heq : format_sites schema kvs3 =
      (get_site_key_order schema >>= fun ko' =>
        format_sites_list ko' (sort_sites_by_name rs) >>= fun fm =>
          Except.ok (dictSet kvs3 "sites" (Json.arr fm))) := by
    unfold format_sites
    rw [hlS3]
    simp only [Option.getD_some, asObjList_map_obj]
  have stepC : format_sites schema kvs3 = Except.ok kvs3 := by
    rw [heq, hko, except_ok_bind, hsortrs, format_sites_list_of_forall hforall,
      except_ok_bind, dictSet_self hvalS (by rw [hlS3]; rfl)]
  have hmain : format_data_value schema (Json.obj kvs3) =
      Except.ok (Json.obj kvs3) := by
    have hred : format_data_value schema (Json.obj kvs3) =
        (format_string_array kvs3 "authors" >>= fun a =>
          format_string_array a "categories" >>= fun b =>
            format_sites schema b >>= fun c =>
              Except.ok (Json.obj c)) := rfl
    rw [hred, stepA, except_ok_bind, stepB, except_ok_bind, stepC,
      except_ok_bind]
  refine ⟨hmain, ?_, ?_⟩
  · unfold format_data
    rw [hok]
    rfl
  · unfold format_data
    rw [hmain]
    rfl

/-! ## Concrete sample data (the spec's end-to-end example) -/

/-- A schema declaring site properties `["name", "headers"]`. -/
def sampleSchema : Json :=
  Json.obj [("properties", Json.obj [("sites", Json.obj [("items",
    Json.obj [("properties",
      Json.obj [("name", Json.obj []), ("headers", Json.obj [])])])])])]

/-- The spec's end-to-end example dataset. -/
def sampleDataset : Json :=
  Json.obj [("authors", Json.arr [Json.str "b", Json.str "a"]),
    ("categories", Json.arr [Json.str "y", Json.str "x"]),
    ("sites", Json.arr [
      Json.obj [("name", Json.str "Zeta"),
        ("headers", Json.obj [("b", Json.str "2"), ("a", Json.str "1")])],
      Json.obj [("name", Json.str "Alpha"), ("headers", Json.obj [])]])]

/-- Its canonical form. -/
def sampleFormatted : Json :=
  Json.obj [("authors", Json.arr [Json.str "a", Json.str "b"]),
    ("categories", Json.arr [Json.str "x", Json.str "y"]),
    ("sites", Json.arr [
      Json.obj [("name", Json.str "Alpha"), ("headers", Json.obj [])],
      Json.obj [("name", Json.str "Zeta"),
        ("headers", Json.obj [("a", Json.str "1"), ("b", Json.str "2")])]])]

theorem format_data_idem_witness :
    format_data_value sampleSchema sampleDataset = Except.ok sampleFormatted ∧
    (format_data_value sampleSchema sampleFormatted =
        Except.ok sampleFormatted ∧
      format_data sampleSchema sampleDataset =
        Except.ok (dumps sampleFormatted) ∧
      format_data sampleSchema sampleFormatted =
        Except.ok (dumps sampleFormatted)) :=
  ⟨rfl, format_data_idem sampleSchema sampleDataset sampleFormatted rfl⟩

/-- A dataset whose single site has the undeclared key `"bad"`. -/
def badSiteDataset : List (String × Json) :=
  [("authors", Json.arr [Json.str "a"]),
   ("categories", Json.arr [Json.str "c"]),
   ("sites", Json.arr [Json.obj [("name", Json.str "A"), ("bad", Json.num 1)]])]

theorem format_data_unknown_key_strict_witness :
    (∃ msg, format_data_value sampleSchema (Json.obj badSiteDataset) =
        Except.error (WMNErr.formatError msg)) ∧
    (∃ msg, format_file ⟨"d", "s", none, none, none, none⟩
        ⟨fun _ => none, fun _ => true⟩
        (format_data sampleSchema (Json.obj badSiteDataset)) "raw" "p" =
        (Except.error (WMNErr.formatError msg),
          ⟨"d", "s", none, none, none, none⟩,
          ⟨fun _ => none, fun _ => true⟩)) := by
  have h := format_data_unknown_key_strict sampleSchema badSiteDataset
    [Json.obj [("name", Json.str "A"), ("bad", Json.num 1)]]
    [[("name", Json.str "A"), ("bad", Json.num 1)]] ["name", "headers"]
    [("name", Json.str "A"), ("bad", Json.num 1)] "bad"
    rfl rfl rfl (List.mem_singleton.mpr rfl) (by decide) (by decide)
  exact ⟨h.1, h.2 "raw" "p" ⟨"d", "s", none, none, none, none⟩
    ⟨fun _ => none, fun _ => true⟩⟩

theorem format_data_sites_sorted_stable_witness :
    ([Json.obj [("name", Json.str "Alpha"), ("headers", Json.obj [])],
      Json.obj [("name", Json.str "Zeta"),
        ("headers", Json.obj [("a", Json.str "1"), ("b", Json.str "2")])]
      ].Chain' (fun a b => pyLe (jsonSiteKey a) (jsonSiteKey b) = true)) :=
  (format_data_sites_sorted_stable sampleSchema sampleDataset sampleFormatted
    [("authors", Json.arr [Json.str "a", Json.str "b"]),
     ("categories", Json.arr [Json.str "x", Json.str "y"]),
     ("sites", Json.arr [
       Json.obj [("name", Json.str "Alpha"), ("headers", Json.obj [])],
       Json.obj [("name", Json.str "Zeta"),
         ("headers", Json.obj [("a", Json.str "1"), ("b", Json.str "2")])]])]
    [Json.obj [("name", Json.str "Alpha"), ("headers", Json.obj [])],
     Json.obj [("name", Json.str "Zeta"),
       ("headers", Json.obj [("a", Json.str "1"), ("b", Json.str "2")])]]
    rfl rfl rfl).1

theorem format_data_site_key_order_witness :
    ∃ kvs0 sites site_objs, sampleDataset = Json.obj kvs0 ∧
      alookup kvs0 "sites" = some (Json.arr sites) ∧
      asObjList sites = some site_objs ∧
      ∀ j ∈ [Json.obj [("name", Json.str "Alpha"), ("headers", Json.obj [])],
        Json.obj [("name", Json.str "Zeta"),
          ("headers", Json.obj [("a", Json.str "1"), ("b", Json.str "2")])]],
        ∃ r, j = Json.obj r ∧
          r.map Prod.fst = ["name", "headers"].filter
            (fun k => decide (k ∈ r.map Prod.fst)) ∧
          ∃ t ∈ site_objs, ∀ k ∈ r.map Prod.fst, k ∈ t.map Prod.fst :=
  format_data_site_key_order sampleSchema sampleDataset sampleFormatted
    [("authors", Json.arr [Json.str "a", Json.str "b"]),
     ("categories", Json.arr [Json.str "x", Json.str "y"]),
     ("sites", Json.arr [
       Json.obj [("name", Json.str "Alpha"), ("headers", Json.obj [])],
       Json.obj [("name", Json.str "Zeta"),
         ("headers", Json.obj [("a", Json.str "1"), ("b", Json.str "2")])]])]
    [Json.obj [("name", Json.str "Alpha"), ("headers", Json.obj [])],
     Json.obj [("name", Json.str "Zeta"),
       ("headers", Json.obj [("a", Json.str "1"), ("b", Json.str "2")])]]
    ["name", "headers"] rfl rfl rfl rfl
